import Mathlib

/-!
Shallow embedding of the halo2 `MockProver` debug verifier (`src/dev.rs`) and
proofs about its four verification checks and its synthesis-time assignment
interface.  Machine integers are modelled as `Nat`/`Int`; the `i32` row
arithmetic of the source always operates on non-negative dividends for the
rotations exercised here, so `%` is embedded as Euclidean `Int.emod`.  Grids
are row lists; out-of-range reads that would panic in the source are totalised
with explicit defaults and the theorems carry the well-formedness hypotheses
that make those defaults unreachable.
-/

namespace MockDev

/-- The kind of a column: advice, fixed, or instance. -/
inductive Any where
  | Advice
  | Fixed
  | Instance
  deriving DecidableEq, Repr

/-- A column identified by its kind and its index among columns of that kind. -/
structure Column where
  kind : Any
  index : Nat
  deriving DecidableEq, Repr

/-- A selector; it is physically backed by a fixed column (`Selector(pub Column<Fixed>)`),
recorded here by that fixed column's index. -/
structure Selector where
  col : Nat
  deriving DecidableEq, Repr

/-- Synthesis-time errors (`plonk::Error` restricted to the variants `dev.rs` produces). -/
inductive Error where
  | SynthesisError
  | BoundsFailure
  deriving DecidableEq, Repr

/-- Modelled from the spec: the constraint-expression tree (the `plonk` `Expression`
type is not part of the `dev` source).  Leaves are constants and fixed/advice/instance
queries (an index into the constraint system's query lists); combinators are sum,
product and scalar scaling. -/
inductive Expression (F : Type) where
  | const (c : F)
  | fixedQ (idx : Nat)
  | adviceQ (idx : Nat)
  | instQ (idx : Nat)
  | sumE (a b : Expression F)
  | productE (a b : Expression F)
  | scaledE (a : Expression F) (c : F)
  deriving DecidableEq, Repr

/-- Modelled from the spec: the generic fold over an expression used by the verifier;
handlers are supplied for each leaf kind and each combinator, exactly the seven
closures `dev.rs` passes to `Expression::evaluate`. -/
def Expression.evaluate {F T : Type} (constant : F → T) (fixedFn adviceFn instFn : Nat → T)
    (sumFn productFn : T → T → T) (scaledFn : T → F → T) : Expression F → T
  | .const c => constant c
  | .fixedQ i => fixedFn i
  | .adviceQ i => adviceFn i
  | .instQ i => instFn i
  | .sumE a b =>
      sumFn (a.evaluate constant fixedFn adviceFn instFn sumFn productFn scaledFn)
        (b.evaluate constant fixedFn adviceFn instFn sumFn productFn scaledFn)
  | .productE a b =>
      productFn (a.evaluate constant fixedFn adviceFn instFn sumFn productFn scaledFn)
        (b.evaluate constant fixedFn adviceFn instFn sumFn productFn scaledFn)
  | .scaledE a c =>
      scaledFn (a.evaluate constant fixedFn adviceFn instFn sumFn productFn scaledFn) c

/-- A cell queried by a gate: a column together with a rotation (`VirtualCell`). -/
structure VirtualCell where
  column : Column
  rotation : Int
  deriving DecidableEq, Repr

/-- Modelled from the spec: a gate as `dev.rs` consumes it — a name, the ordered
(constraint name, expression) pairs, and the derived queried-selector and
queried-cell sets (the `plonk` `Gate` type is not part of the `dev` source). -/
structure Gate (F : Type) where
  name : String
  constraints : List (String × Expression F)
  queried_selectors : List Selector
  queried_cells : List VirtualCell
  deriving DecidableEq, Repr

/-- The gate's polynomials, in constraint order (`Gate::polynomials`). -/
def Gate.polynomials {F : Type} (g : Gate F) : List (Expression F) :=
  g.constraints.map Prod.snd

/-- The name of the `i`-th constraint of the gate (`Gate::constraint_name`). -/
def Gate.constraint_name {F : Type} (g : Gate F) (i : Nat) : String :=
  (g.constraints.map Prod.fst).getD i ""

/-- Modelled from the spec: a lookup argument — equal-length ordered lists of input
and table expressions. -/
structure Lookup (F : Type) where
  input_expressions : List (Expression F)
  table_expressions : List (Expression F)
  deriving DecidableEq, Repr

/-- Modelled from the spec: a declared permutation argument, exposing its ordered
column set (`Argument::get_columns`). -/
structure PermArg where
  columns : List Column
  deriving DecidableEq, Repr

/-- The declared column set of a permutation argument. -/
def PermArg.get_columns (p : PermArg) : List Column :=
  p.columns

/-- Modelled from the spec: the `Permutation` handle passed to `copy` — its index
among the declared permutations, and (under the source's name `mapping`) its
declared column set. -/
structure Permutation where
  index : Nat
  mapping : List Column
  deriving DecidableEq, Repr

/-- Modelled from the spec: a permutation assembly — for every
(local column, row) slot, the slot it is linked to; the default is the
identity mapping (`permutation::keygen::Assembly` is not part of the `dev` source). -/
structure Assembly where
  mapping : List (List (Nat × Nat))
  deriving DecidableEq, Repr

/-- Modelled from the spec: a fresh assembly maps every slot of the declared
columns × `[0, n)` domain to itself. -/
def Assembly.new (n : Nat) (cols : Nat) : Assembly :=
  ⟨(List.range cols).map fun c => (List.range n).map fun r => (c, r)⟩

/-- Modelled from the spec: recording a copy constraint links the two slots by
swapping their mapping entries (merging their cycles), after checking that both
slots lie inside the assembly's domain. -/
def Assembly.copy (a : Assembly) (left_column left_row right_column right_row : Nat) :
    Except Error Assembly :=
  if left_column < a.mapping.length ∧ left_row < (a.mapping.getD left_column []).length ∧
      right_column < a.mapping.length ∧ right_row < (a.mapping.getD right_column []).length then
    let tmp := (a.mapping.getD left_column []).getD left_row (0, 0)
    let m1 := a.mapping.set left_column
      ((a.mapping.getD left_column []).set left_row
        ((a.mapping.getD right_column []).getD right_row (0, 0)))
    let m2 := m1.set right_column ((m1.getD right_column []).set right_row tmp)
    .ok ⟨m2⟩
  else
    .error Error.BoundsFailure

/-- Modelled from the spec: the static constraint system as `dev.rs` consumes it —
column counts, the ordered query lists resolving expression leaves, and the
ordered gates, lookups and permutation arguments. -/
structure ConstraintSystem (F : Type) where
  num_fixed_columns : Nat
  num_advice_columns : Nat
  fixed_queries : List (Nat × Int)
  advice_queries : List (Nat × Int)
  instance_queries : List (Nat × Int)
  gates : List (Gate F)
  lookups : List (Lookup F)
  permutations : List PermArg
  deriving DecidableEq, Repr

/-- A synthesis region: name, lazily computed start row, the enabled selectors with
their rows (a hash map in the source, an association list here), and the cells
written inside the region. -/
structure Region where
  name : String
  start : Option Nat
  enabled_selectors : List (Selector × List Nat)
  cells : List (Column × Nat)
  deriving DecidableEq, Repr

/-- `Region::update_start`: the region start is the earliest row assigned to. -/
def Region.update_start (r : Region) (row : Nat) : Region :=
  let start := r.start.getD row
  let start := if row < start then row else start
  { r with start := some start }

/-- Cells that haven't been explicitly assigned to default to zero (`cell_value`). -/
def cell_value {F : Type} [Zero F] (cell : Option F) : F :=
  cell.getD 0

/-- The reasons why a particular circuit is not satisfied (`VerifyFailure`). -/
inductive VerifyFailure where
  | Cell (region_index : Nat) (region_name : String) (column : Column) (offset : Int)
      (gate_index : Nat) (gate_name : String)
  | Constraint (gate_index : Nat) (gate_name : String) (constraint_index : Nat)
      (constraint_name : String) (row : Nat)
  | LookupFail (lookup_index : Nat) (row : Nat)
  | PermutationFail (perm_index : Nat) (column : Nat) (row : Nat)
  deriving DecidableEq, Repr

/-- The mock prover state: circuit size `n = 2^k`, the constraint system, the
finished and current regions, the three grids (fixed/advice cells optional until
assigned, instance cells mandatory), and one assembly per declared permutation. -/
structure MockProver (F : Type) where
  n : Nat
  cs : ConstraintSystem F
  regions : List Region
  current_region : Option Region
  fixed : List (List (Option F))
  advice : List (List (Option F))
  inst : List (List F)
  permutations : List Assembly
  deriving DecidableEq, Repr

variable {F : Type} [CommRing F] [DecidableEq F]

/-- The `load_opt` helper of the gate check: resolve query `index` through the query
list, rotate the row modulo `n`, and read the optional grid defaulting to zero. -/
def load_opt (n row : Int) (queries : List (Nat × Int)) (cells : List (List (Option F))) :
    Nat → F := fun index =>
  let q := queries.getD index (0, 0)
  let resolved_row := (row + q.2) % n
  cell_value ((cells.getD q.1 []).getD resolved_row.toNat none)

/-- The `load` helper of the gate check: like `load_opt` but over the always-defined
instance grid. -/
def load (n row : Int) (queries : List (Nat × Int)) (cells : List (List F)) :
    Nat → F := fun index =>
  let q := queries.getD index (0, 0)
  let resolved_row := (row + q.2) % n
  (cells.getD q.1 []).getD resolved_row.toNat 0

/-- Evaluation of one gate polynomial at one row of the gate check: the source
iterates `row` over `n..2n` and reduces modulo `n` to handle wrapping. -/
def gateEval (p : MockProver F) (row : Int) (e : Expression F) : F :=
  e.evaluate (fun scalar => scalar)
    (load_opt (p.n : Int) row p.cs.fixed_queries p.fixed)
    (load_opt (p.n : Int) row p.cs.advice_queries p.advice)
    (load (p.n : Int) row p.cs.instance_queries p.inst)
    (fun a b => a + b) (fun a b => a * b) (fun a scalar => a * scalar)

/-- Check B: all gates are satisfied for all rows (`gate_errors`). -/
def gateErrors (p : MockProver F) : List VerifyFailure :=
  p.cs.gates.enum.flatMap fun gg =>
    ((List.range p.n).map fun (i : Nat) => (p.n : Int) + (i : Int)).flatMap fun row =>
      gg.2.polynomials.enum.filterMap fun pp =>
        if gateEval p row pp.2 = 0 then none
        else some (.Constraint gg.1 gg.2.name pp.1 (gg.2.constraint_name pp.1)
          (row - (p.n : Int)).toNat)

/-- The `load` closure of the lookup check: expression evaluation where every leaf
query is read at row `(row + n + rotation) mod n`. -/
def lookupLoad (p : MockProver F) (row : Int) (e : Expression F) : F :=
  e.evaluate (fun scalar => scalar)
    (fun index =>
      let q := p.cs.fixed_queries.getD index (0, 0)
      cell_value ((p.fixed.getD q.1 []).getD (((row + p.n + q.2) % (p.n : Int)).toNat) none))
    (fun index =>
      let q := p.cs.advice_queries.getD index (0, 0)
      cell_value ((p.advice.getD q.1 []).getD (((row + p.n + q.2) % (p.n : Int)).toNat) none))
    (fun index =>
      let q := p.cs.instance_queries.getD index (0, 0)
      (p.inst.getD q.1 []).getD (((row + p.n + q.2) % (p.n : Int)).toNat) 0)
    (fun a b => a + b) (fun a b => a * b) (fun a scalar => a * scalar)

/-- Check C: every lookup input row occurs in the corresponding table
(`lookup_errors`). -/
def lookupErrors (p : MockProver F) : List VerifyFailure :=
  p.cs.lookups.enum.flatMap fun ll =>
    (List.range p.n).filterMap fun input_row =>
      let inputs := ll.2.input_expressions.map fun c => lookupLoad p (Int.ofNat input_row) c
      let lookup_passes := (List.range p.n).any fun table_row =>
        decide ((ll.2.table_expressions.map fun c => lookupLoad p (Int.ofNat table_row) c) = inputs)
      if lookup_passes then none
      else some (.LookupFail ll.1 input_row)

/-- Check A: within each region, all cells used in instantiated gates have been
assigned to (`selector_errors`). -/
def selectorErrors (p : MockProver F) : List VerifyFailure :=
  p.regions.enum.flatMap fun rr =>
    rr.2.enabled_selectors.flatMap fun sa =>
      (p.cs.gates.enum.filter fun gg => decide (sa.1 ∈ gg.2.queried_selectors)).flatMap
        fun gg =>
          sa.2.flatMap fun selector_row =>
            gg.2.queried_cells.filterMap fun cell =>
              let cell_row := (((selector_row : Int) + p.n + cell.rotation) % (p.n : Int)).toNat
              if (cell.column, cell_row) ∈ rr.2.cells then none
              else some (.Cell rr.1 rr.2.name cell.column
                ((cell_row : Int) - ((rr.2.start.getD 0 : Nat) : Int)) gg.1 gg.2.name)

/-- The `original` closure of the permutation check: resolve a permutation column
slot through the declared column set to the underlying grid; the source unwraps
a missing column, modelled here by a zero default. -/
def original (p : MockProver F) (perm_index column row : Nat) : F :=
  match ((p.cs.permutations.getD perm_index { columns := [] }).get_columns)[column]? with
  | some c =>
      match c.kind with
      | .Advice => cell_value ((p.advice.getD c.index []).getD row none)
      | .Fixed => cell_value ((p.fixed.getD c.index []).getD row none)
      | .Instance => (p.inst.getD c.index []).getD row 0
  | none => 0

/-- Check D: permutations preserve the original values of the cells (`perm_errors`). -/
def permErrors (p : MockProver F) : List VerifyFailure :=
  p.permutations.enum.flatMap fun pa =>
    pa.2.mapping.enum.flatMap fun cv =>
      cv.2.enum.filterMap fun rc =>
        let original_cell := original p pa.1 cv.1 rc.1
        let permuted_cell := original p pa.1 rc.2.1 rc.2.2
        if original_cell = permuted_cell then none
        else some (.PermutationFail pa.1 cv.1 rc.1)

/-- `MockProver::verify`: run the four checks, concatenate their failures in order,
and succeed exactly when the list is empty. -/
def verify (p : MockProver F) : Except (List VerifyFailure) Unit :=
  let errors := selectorErrors p ++ gateErrors p ++ lookupErrors p ++ permErrors p
  if errors.isEmpty then .ok () else .error errors

/-- The region-recording step shared verbatim by `assign_advice` and `assign_fixed`:
if a region is open, extend its start to the assigned row and push the cell. -/
def record_region_cell (p : MockProver F) (column : Column) (row : Nat) : MockProver F :=
  match p.current_region with
  | some region =>
      let region := region.update_start row
      { p with current_region := some { region with cells := region.cells ++ [(column, row)] } }
  | none => p

/-- `Assignment::assign_advice` for `MockProver`.  The value producer is modelled by
its one invocation (an `Except` value; `Assigned::evaluate` collapses to the field
value itself).  Rust evaluates the assigned value before the place expression, so a
producer error propagates before the bounds check; the mutated state is returned
alongside the result because `&mut self` keeps the region mutation on failure. -/
def assign_advice (p : MockProver F) (column row : Nat) (value : Except Error F) :
    MockProver F × Except Error Unit :=
  let p := record_region_cell p ⟨Any.Advice, column⟩ row
  match value with
  | .error e => (p, .error e)
  | .ok v =>
      if column < p.advice.length ∧ row < (p.advice.getD column []).length then
        ({ p with advice := p.advice.set column ((p.advice.getD column []).set row (some v)) },
          .ok ())
      else (p, .error Error.BoundsFailure)

/-- `Assignment::assign_fixed` for `MockProver`; identical to `assign_advice` over
the fixed grid. -/
def assign_fixed (p : MockProver F) (column row : Nat) (value : Except Error F) :
    MockProver F × Except Error Unit :=
  let p := record_region_cell p ⟨Any.Fixed, column⟩ row
  match value with
  | .error e => (p, .error e)
  | .ok v =>
      if column < p.fixed.length ∧ row < (p.fixed.getD column []).length then
        ({ p with fixed := p.fixed.set column ((p.fixed.getD column []).set row (some v)) },
          .ok ())
      else (p, .error Error.BoundsFailure)

/-- `Assignment::copy` for `MockProver`: bounds-check the permutation reference
first, then resolve both columns to their position in the permutation's declared
column set, then record the link in that permutation's assembly. -/
def copy (p : MockProver F) (perm : Permutation) (left_column : Column) (left_row : Nat)
    (right_column : Column) (right_row : Nat) : MockProver F × Except Error Unit :=
  if p.permutations.length ≤ perm.index then
    (p, .error Error.BoundsFailure)
  else
    match perm.mapping.findIdx? (fun c => decide (c = left_column)) with
    | none => (p, .error Error.SynthesisError)
    | some left_column_index =>
        match perm.mapping.findIdx? (fun c => decide (c = right_column)) with
        | none => (p, .error Error.SynthesisError)
        | some right_column_index =>
            match (p.permutations.getD perm.index ⟨[]⟩).copy
                left_column_index left_row right_column_index right_row with
            | .error e => (p, .error e)
            | .ok asm =>
                ({ p with permutations := p.permutations.set perm.index asm }, .ok ())

/-- Modelled from the spec: the synthesis step is external (the `Circuit` trait is
not part of the `dev` source); it drives the witness-recording interface with a
sequence of region-scoped writes and copy declarations, each of which may fail. -/
inductive SynOp (F : Type) where
  | enterRegion (name : String)
  | exitRegion
  | enableSelector (s : Selector) (row : Nat)
  | assignAdvice (column row : Nat) (value : Except Error F)
  | assignFixed (column row : Nat) (value : Except Error F)
  | copyOp (perm : Permutation) (left_column : Column) (left_row : Nat)
      (right_column : Column) (right_row : Nat)
  | pushNamespace (name : String)
  | popNamespace

/-- `Assignment::enter_region` (on the non-panicking path): open a fresh region. -/
def enter_region (p : MockProver F) (name : String) : MockProver F :=
  { p with current_region := some { name := name, start := none, enabled_selectors := [], cells := [] } }

/-- One interface call.  `none` models the fatal contract violations (`assert!` /
`unwrap` panics when a region is opened twice, closed while absent, or a selector
is enabled outside a region); `some (state, result)` is a completed call. -/
def applyOp (p : MockProver F) : SynOp F → Option (MockProver F × Except Error Unit)
  | .enterRegion name =>
      if p.current_region.isSome then none
      else some (enter_region p name, .ok ())
  | .exitRegion =>
      match p.current_region with
      | none => none
      | some r => some ({ p with regions := p.regions ++ [r], current_region := none }, .ok ())
  | .enableSelector s row =>
      match p.current_region with
      | none => none
      | some region =>
          let entry := (region.enabled_selectors.lookup s).getD []
          let selectors := (region.enabled_selectors.filter fun kv => decide (kv.1 ≠ s))
            ++ [(s, entry ++ [row])]
          let p := { p with current_region := some { region with enabled_selectors := selectors } }
          some (assign_fixed p s.col row (.ok 1))
  | .assignAdvice column row value => some (assign_advice p column row value)
  | .assignFixed column row value => some (assign_fixed p column row value)
  | .copyOp perm lc lr rc rr => some (copy p perm lc lr rc rr)
  | .pushNamespace _ => some (p, .ok ())
  | .popNamespace => some (p, .ok ())

/-- Modelled from the spec: run the synthesis calls in order, aborting on the first
failing call (a synthesis failure propagates as a single terminal error). -/
def runOps (p : MockProver F) : List (SynOp F) → Option (MockProver F × Except Error Unit)
  | [] => some (p, .ok ())
  | op :: ops =>
      match applyOp p op with
      | none => none
      | some (p', .error e) => some (p', .error e)
      | some (p', .ok _) => runOps p' ops

/-- The state `MockProver::run` builds before synthesis: `n = 2^k` (`1 << k`),
all-unassigned fixed/advice grids sized from the constraint system, the
caller-supplied instance grid stored verbatim, and one fresh identity assembly per
declared permutation. -/
def initialProver (k : Nat) (cs : ConstraintSystem F) (inst : List (List F)) : MockProver F :=
  let n := 2 ^ k
  { n := n
    cs := cs
    regions := []
    current_region := none
    fixed := List.replicate cs.num_fixed_columns (List.replicate n none)
    advice := List.replicate cs.num_advice_columns (List.replicate n none)
    inst := inst
    permutations := cs.permutations.map fun parg => Assembly.new n parg.columns.length }

/-- `MockProver::run` with the external circuit's synthesis step given as its call
sequence: build the initial state, drive synthesis, and yield the populated state
or the first synthesis error (`none` is a fatal contract violation). -/
def run (k : Nat) (cs : ConstraintSystem F) (ops : List (SynOp F)) (inst : List (List F)) :
    Option (Except Error (MockProver F)) :=
  match runOps (initialProver k cs inst) ops with
  | none => none
  | some (p, .ok _) => some (.ok p)
  | some (_, .error e) => some (.error e)

/-- The specification's row resolution: a rotation is applied to the current row
with wraparound modulo `n`. -/
def rotRow (n : Nat) (r : Nat) (rot : Int) : Nat :=
  (((r : Int) + rot) % (n : Int)).toNat

/-- The specification's expression evaluation at row `r`: leaves read the grids at
the rotated row (fixed/advice defaulting to zero), combinators are field
addition, multiplication and scalar multiplication. -/
def specEval (p : MockProver F) (r : Nat) : Expression F → F
  | .const c => c
  | .fixedQ i =>
      let q := p.cs.fixed_queries.getD i (0, 0)
      cell_value ((p.fixed.getD q.1 []).getD (rotRow p.n r q.2) none)
  | .adviceQ i =>
      let q := p.cs.advice_queries.getD i (0, 0)
      cell_value ((p.advice.getD q.1 []).getD (rotRow p.n r q.2) none)
  | .instQ i =>
      let q := p.cs.instance_queries.getD i (0, 0)
      (p.inst.getD q.1 []).getD (rotRow p.n r q.2) 0
  | .sumE a b => specEval p r a + specEval p r b
  | .productE a b => specEval p r a * specEval p r b
  | .scaledE a c => specEval p r a * c

deriving instance DecidableEq for Except

/-- A concrete lookup over `ZMod 5` whose input and table tuples are both the
constant zero, so it is satisfied at every row. -/
def exLookup : Lookup (ZMod 5) :=
  ⟨[Expression.const 0], [Expression.const 0]⟩

/-- A concrete gate over `ZMod 5`: one constraint reading advice query 0 at the
current row, gated (for the completeness check) by selector 0. -/
def exGate : Gate (ZMod 5) :=
  { name := "Equality check"
    constraints := [("c0", Expression.adviceQ 0)]
    queried_selectors := [⟨0⟩]
    queried_cells := [⟨⟨Any.Advice, 0⟩, 0⟩] }

/-- A concrete constraint system over `ZMod 5` with one advice column, one gate,
one trivially satisfiable lookup and one single-column permutation argument. -/
def exCS : ConstraintSystem (ZMod 5) :=
  { num_fixed_columns := 0
    num_advice_columns := 1
    fixed_queries := []
    advice_queries := [(0, 0)]
    instance_queries := []
    gates := [exGate]
    lookups := [exLookup]
    permutations := [⟨[⟨Any.Advice, 0⟩]⟩] }

/-- A concrete verifier state of size `n = 2` whose single advice column was never
assigned: its gate is satisfied only because unassigned cells read as zero. -/
def exProver : MockProver (ZMod 5) :=
  { n := 2
    cs := exCS
    regions := []
    current_region := none
    fixed := []
    advice := [[none, none]]
    inst := []
    permutations := [Assembly.new 2 1] }

/-- A concrete closed region that enabled selector 0 at row 1 and wrote the advice
cell at row 1. -/
def exRegion0 : Region :=
  { name := "r0"
    start := some 1
    enabled_selectors := [(⟨0⟩, [1])]
    cells := [(⟨Any.Advice, 0⟩, 1)] }

/-- A concrete verifier state with one closed region, for the completeness check. -/
def exProverR : MockProver (ZMod 5) :=
  { n := 2
    cs := { num_fixed_columns := 1
            num_advice_columns := 1
            fixed_queries := [(0, 0)]
            advice_queries := [(0, 0)]
            instance_queries := []
            gates := [exGate]
            lookups := []
            permutations := [] }
    regions := [exRegion0]
    current_region := none
    fixed := [[some 1, some 1]]
    advice := [[none, some 0]]
    inst := []
    permutations := [] }

/-- `exProver` with a region currently open, for the assignment interface. -/
def exProverOpen : MockProver (ZMod 5) :=
  { exProver with current_region := some exRegion0 }

/-- A concrete permutation handle naming `exCS`'s only permutation argument. -/
def exPerm : Permutation :=
  { index := 0, mapping := [⟨Any.Advice, 0⟩] }

/-- A concrete gate over `ZMod 5` whose one constraint reads fixed query 0 at the
current row. -/
def exGateF : Gate (ZMod 5) :=
  { name := "Fixed check"
    constraints := [("c0", Expression.fixedQ 0)]
    queried_selectors := []
    queried_cells := [⟨⟨Any.Fixed, 0⟩, 0⟩] }

/-- A concrete verifier state of size `n = 2` whose fixed and advice columns were
never assigned; its gate reads the unassigned fixed cell and its permutation
argument declares both the advice and the fixed column, so verification succeeds
only because unassigned fixed and advice cells read as zero. -/
def exProverF : MockProver (ZMod 5) :=
  { n := 2
    cs := { num_fixed_columns := 1
            num_advice_columns := 1
            fixed_queries := [(0, 0)]
            advice_queries := [(0, 0)]
            instance_queries := []
            gates := [exGateF]
            lookups := []
            permutations := [⟨[⟨Any.Advice, 0⟩, ⟨Any.Fixed, 0⟩]⟩] }
    regions := []
    current_region := none
    fixed := [[none, none]]
    advice := [[none, none]]
    inst := []
    permutations := [Assembly.new 2 2] }

theorem emod_shift (n : Nat) (x rot : Int) :
    (x + (n : Int) + rot) % (n : Int) = (x + rot) % (n : Int) := by
  rw [show x + (n : Int) + rot = (x + rot) + (n : Int) * 1 by ring, Int.add_mul_emod_self_left]

theorem rotRow_prev_wraps (n : Nat) (hn : 0 < n) : rotRow n 0 (-1) = n - 1 := by
  unfold rotRow
  have hne : ((n : Int)) ≠ 0 := by exact_mod_cast hn.ne'
  have h1 : ((n : Int) - 1) % (n : Int) = (n : Int) - 1 :=
    Int.emod_eq_of_lt (by omega) (by omega)
  have h2 : (-1 + (n : Int) * 1) % (n : Int) = (-1) % (n : Int) :=
    Int.add_mul_emod_self_left (-1) (n : Int) 1
  rw [show (-1 + (n : Int) * 1) = (n : Int) - 1 by ring] at h2
  simp only [Nat.cast_zero, zero_add]
  omega

/-- The gate check's loaders at the shifted row `n + r` read exactly the
specification's rotated rows, so the whole evaluation agrees with `specEval`. -/
theorem gateEval_eq_specEval (p : MockProver F) (r : Nat) (e : Expression F) :
    gateEval p ((p.n : Int) + r) e = specEval p r e := by
  induction e with
  | const c => rfl
  | fixedQ i =>
      simp only [gateEval, Expression.evaluate, load_opt, specEval, rotRow]
      rw [show ((p.n : Int) + (r : Int) + (p.cs.fixed_queries.getD i (0, 0)).2)
          = ((r : Int) + (p.n : Int) + (p.cs.fixed_queries.getD i (0, 0)).2) by ring,
        emod_shift]
  | adviceQ i =>
      simp only [gateEval, Expression.evaluate, load_opt, specEval, rotRow]
      rw [show ((p.n : Int) + (r : Int) + (p.cs.advice_queries.getD i (0, 0)).2)
          = ((r : Int) + (p.n : Int) + (p.cs.advice_queries.getD i (0, 0)).2) by ring,
        emod_shift]
  | instQ i =>
      simp only [gateEval, Expression.evaluate, load, specEval, rotRow]
      rw [show ((p.n : Int) + (r : Int) + (p.cs.instance_queries.getD i (0, 0)).2)
          = ((r : Int) + (p.n : Int) + (p.cs.instance_queries.getD i (0, 0)).2) by ring,
        emod_shift]
  | sumE a b iha ihb =>
      simp only [gateEval, Expression.evaluate] at iha ihb ⊢
      rw [iha, ihb]; rfl
  | productE a b iha ihb =>
      simp only [gateEval, Expression.evaluate] at iha ihb ⊢
      rw [iha, ihb]; rfl
  | scaledE a c iha =>
      simp only [gateEval, Expression.evaluate] at iha ⊢
      rw [iha]; rfl

/-- The lookup check's loader reads exactly the specification's rotated rows. -/
theorem lookupLoad_eq_specEval (p : MockProver F) (r : Nat) (e : Expression F) :
    lookupLoad p (Int.ofNat r) e = specEval p r e := by
  induction e with
  | const c => rfl
  | fixedQ i =>
      simp only [lookupLoad, Expression.evaluate, specEval, rotRow, Int.ofNat_eq_coe]
      rw [emod_shift]
  | adviceQ i =>
      simp only [lookupLoad, Expression.evaluate, specEval, rotRow, Int.ofNat_eq_coe]
      rw [emod_shift]
  | instQ i =>
      simp only [lookupLoad, Expression.evaluate, specEval, rotRow, Int.ofNat_eq_coe]
      rw [emod_shift]
  | sumE a b iha ihb =>
      simp only [lookupLoad, Expression.evaluate] at iha ihb ⊢
      rw [iha, ihb]; simp only [specEval]
  | productE a b iha ihb =>
      simp only [lookupLoad, Expression.evaluate] at iha ihb ⊢
      rw [iha, ihb]; simp only [specEval]
  | scaledE a c iha =>
      simp only [lookupLoad, Expression.evaluate] at iha ⊢
      rw [iha]; simp only [specEval]

/-- Membership in the gate check's failure list, unfolded to its generating data:
a gate index, a row below `n`, and a polynomial whose evaluation is nonzero. -/
theorem mem_gateErrors {p : MockProver F} {x : VerifyFailure} :
    x ∈ gateErrors p ↔ ∃ gi gate i pi poly,
      p.cs.gates[gi]? = some gate ∧ i < p.n ∧ gate.polynomials[pi]? = some poly ∧
      gateEval p ((p.n : Int) + i) poly ≠ 0 ∧
      x = VerifyFailure.Constraint gi gate.name pi (gate.constraint_name pi) i := by
  unfold gateErrors
  constructor
  · intro hx
    simp only [List.mem_flatMap, List.mem_filterMap, List.mem_map, List.mem_range,
      List.mem_enum_iff_getElem?, Option.ite_none_left_eq_some, Option.some.injEq] at hx
    obtain ⟨gg, hgg, row, ⟨i, hi, rfl⟩, pp, hpp, hne, hxeq⟩ := hx
    have hni : (((p.n : Int) + i) - (p.n : Int)).toNat = i := by omega
    rw [hni] at hxeq
    exact ⟨gg.1, gg.2, i, pp.1, pp.2, hgg, hi, hpp, hne, hxeq.symm⟩
  · rintro ⟨gi, gate, i, pi, poly, hg, hi, hp, hne, rfl⟩
    simp only [List.mem_flatMap]
    refine ⟨(gi, gate), List.mem_enum_iff_getElem?.mpr hg, (p.n : Int) + i, ?_, ?_⟩
    · apply List.mem_map.mpr
      exact ⟨i, List.mem_range.mpr hi, rfl⟩
    · simp only [List.mem_filterMap]
      refine ⟨(pi, poly), List.mem_enum_iff_getElem?.mpr hp, ?_⟩
      simp only [Option.ite_none_left_eq_some, Option.some.injEq]
      have hni : (((p.n : Int) + i) - (p.n : Int)).toNat = i := by omega
      rw [hni]
      exact ⟨hne, rfl⟩

/-- C1: for every gate and every row `r` below `n`, the gate check evaluates each
(constraint, expression) pair by the recursive fold — fixed/advice leaves read the
grid at row `(r + rotation) mod n` defaulting to zero when unassigned, instance
leaves read the instance grid at the same rotated row, and the combinators are
field addition, multiplication and scalar multiplication (`specEval`) — and a
`Constraint` failure naming that gate, that constraint and row `r` is emitted iff
the value is nonzero; moreover a rotation of `-1` at row `0` resolves to row
`n - 1`. -/
theorem gate_satisfaction_check (p : MockProver F) (hn : 0 < p.n)
    (gi pi r : Nat) (gate : Gate F) (poly : Expression F)
    (hg : p.cs.gates[gi]? = some gate)
    (hp : gate.polynomials[pi]? = some poly)
    (hr : r < p.n) :
    (VerifyFailure.Constraint gi gate.name pi (gate.constraint_name pi) r ∈ gateErrors p
      ↔ specEval p r poly ≠ 0)
    ∧ rotRow p.n 0 (-1) = p.n - 1 := by
  refine ⟨?_, rotRow_prev_wraps p.n hn⟩
  rw [mem_gateErrors]
  constructor
  · rintro ⟨gi', gate', i', pi', poly', hg', hi', hp', hne', heq⟩
    injection heq with h1 h2 h3 h4 h5
    subst h1; subst h3; subst h5
    rw [hg] at hg'
    injection hg' with hgeq
    subst hgeq
    rw [hp] at hp'
    injection hp' with hpeq
    subst hpeq
    rw [gateEval_eq_specEval] at hne'
    exact hne'
  · intro hne
    refine ⟨gi, gate, r, pi, poly, hg, hr, hp, ?_, rfl⟩
    rw [gateEval_eq_specEval]
    exact hne

/-- Membership in the lookup check's failure list, unfolded to its generating data:
a lookup index and an input row below `n` such that no table row below `n` yields
the input tuple. -/
theorem mem_lookupErrors {p : MockProver F} {x : VerifyFailure} :
    x ∈ lookupErrors p ↔ ∃ li lk r,
      p.cs.lookups[li]? = some lk ∧ r < p.n ∧
      (¬ ∃ t, t < p.n ∧ (lk.table_expressions.map fun c => lookupLoad p (Int.ofNat t) c)
          = (lk.input_expressions.map fun c => lookupLoad p (Int.ofNat r) c)) ∧
      x = VerifyFailure.LookupFail li r := by
  unfold lookupErrors
  constructor
  · intro hx
    simp only [List.mem_flatMap, List.mem_filterMap, List.mem_range,
      List.mem_enum_iff_getElem?, Option.ite_none_left_eq_some, Option.some.injEq,
      List.any_eq_true, decide_eq_true_eq] at hx
    obtain ⟨ll, hll, r, hr, hpass, hxeq⟩ := hx
    exact ⟨ll.1, ll.2, r, hll, hr, hpass, hxeq.symm⟩
  · rintro ⟨li, lk, r, hl, hr, hpass, rfl⟩
    simp only [List.mem_flatMap, List.mem_filterMap, List.mem_range,
      List.mem_enum_iff_getElem?, Option.ite_none_left_eq_some, Option.some.injEq,
      List.any_eq_true, decide_eq_true_eq]
    exact ⟨(li, lk), hl, r, hr, hpass, rfl⟩

/-- C2: for every lookup argument and every input row `r` below `n`, the input
expressions are evaluated at `r` into an ordered tuple, and a `Lookup` failure
naming that lookup and row `r` is emitted iff no table row `t` below `n` makes the
ordered table tuple equal component-wise to the input tuple; all evaluation reads
unassigned fixed/advice cells as zero and wraps row indexing modulo `n`
(`specEval`). -/
theorem lookup_inclusion_check (p : MockProver F) (li r : Nat) (lk : Lookup F)
    (hl : p.cs.lookups[li]? = some lk) (hr : r < p.n) :
    VerifyFailure.LookupFail li r ∈ lookupErrors p ↔
      ¬ ∃ t, t < p.n ∧ (lk.table_expressions.map fun c => specEval p t c)
        = (lk.input_expressions.map fun c => specEval p r c) := by
  rw [mem_lookupErrors]
  simp only [lookupLoad_eq_specEval]
  constructor
  · rintro ⟨li', lk', r', hl', hr', hpass, heq⟩
    injection heq with h1 h2
    subst h1; subst h2
    rw [hl] at hl'
    injection hl' with hlk
    subst hlk
    exact hpass
  · intro hpass
    exact ⟨li, lk, r, hl, hr, hpass, rfl⟩

/-- The cell-completeness check's row computation agrees with the specification's
rotated row. -/
theorem cellRow_eq_rotRow (n srow : Nat) (rot : Int) :
    (((srow : Int) + (n : Int) + rot) % (n : Int)).toNat = rotRow n srow rot := by
  unfold rotRow
  rw [emod_shift]

/-- Membership in the cell-completeness check's failure list, unfolded to its
generating data: a region, a recorded (selector, rows) pair, a gate querying that
selector, a selector row and a queried cell whose resolved row is missing from the
region's written cells. -/
theorem mem_selectorErrors {p : MockProver F} {x : VerifyFailure} :
    x ∈ selectorErrors p ↔ ∃ ri reg sel rows gi gate srow cell,
      p.regions[ri]? = some reg ∧ (sel, rows) ∈ reg.enabled_selectors ∧
      p.cs.gates[gi]? = some gate ∧ sel ∈ gate.queried_selectors ∧
      srow ∈ rows ∧ cell ∈ gate.queried_cells ∧
      (cell.column, rotRow p.n srow cell.rotation) ∉ reg.cells ∧
      x = VerifyFailure.Cell ri reg.name cell.column
        ((rotRow p.n srow cell.rotation : Int) - ((reg.start.getD 0 : Nat) : Int))
        gi gate.name := by
  unfold selectorErrors
  constructor
  · intro hx
    simp only [List.mem_flatMap, List.mem_filterMap, List.mem_filter,
      List.mem_enum_iff_getElem?, Option.ite_none_left_eq_some, Option.some.injEq,
      decide_eq_true_eq, cellRow_eq_rotRow] at hx
    obtain ⟨rr, hrr, sa, hsa, gg, ⟨hgg, hqs⟩, srow, hsrow, cell, hcell, hmiss, hxeq⟩ := hx
    exact ⟨rr.1, rr.2, sa.1, sa.2, gg.1, gg.2, srow, cell, hrr, hsa, hgg, hqs, hsrow,
      hcell, hmiss, hxeq.symm⟩
  · rintro ⟨ri, reg, sel, rows, gi, gate, srow, cell, hr, hsel, hg, hqs, hsr, hc, hmiss, rfl⟩
    simp only [List.mem_flatMap, List.mem_filterMap, List.mem_filter,
      List.mem_enum_iff_getElem?, Option.ite_none_left_eq_some, Option.some.injEq,
      decide_eq_true_eq, cellRow_eq_rotRow]
    exact ⟨(ri, reg), hr, (sel, rows), hsel, (gi, gate), ⟨hg, hqs⟩, srow, hsr, cell, hc,
      hmiss, rfl⟩

/-- C3: for every closed region, every recorded (selector, rows) pair, every gate
whose queried-selector set contains that selector, every recorded selector row and
every queried cell, a `Cell` failure naming the region (index and name), the gate
(index and name), the column, and the possibly-negative offset
`((srow + rotation) mod n) - region_start` is emitted iff the pair
`(column, (srow + rotation) mod n)` is absent from the region's written cells. -/
theorem cell_completeness_check (p : MockProver F) (ri gi srow st : Nat) (reg : Region)
    (sel : Selector) (rows : List Nat) (gate : Gate F) (cell : VirtualCell)
    (hr : p.regions[ri]? = some reg) (hsel : (sel, rows) ∈ reg.enabled_selectors)
    (hg : p.cs.gates[gi]? = some gate) (hqs : sel ∈ gate.queried_selectors)
    (hsr : srow ∈ rows) (hc : cell ∈ gate.queried_cells) (hst : reg.start = some st) :
    VerifyFailure.Cell ri reg.name cell.column
        ((rotRow p.n srow cell.rotation : Int) - (st : Int)) gi gate.name
        ∈ selectorErrors p
      ↔ (cell.column, rotRow p.n srow cell.rotation) ∉ reg.cells := by
  rw [mem_selectorErrors]
  constructor
  · rintro ⟨ri', reg', sel', rows', gi', gate', srow', cell', hr', hsel', hg', hqs', hsr',
      hc', hmiss', heq⟩
    injection heq with h1 h2 h3 h4 h5 h6
    subst h1; subst h5
    rw [hr] at hr'
    injection hr' with hreg
    subst hreg
    rw [hg] at hg'
    injection hg' with hgate
    subst hgate
    rw [hst] at h4
    simp only [Option.getD_some] at h4
    have hrow : rotRow p.n srow' cell'.rotation = rotRow p.n srow cell.rotation := by omega
    rw [← h3, hrow] at hmiss'
    exact hmiss'
  · intro hmiss
    refine ⟨ri, reg, sel, rows, gi, gate, srow, cell, hr, hsel, hg, hqs, hsr, hc, hmiss, ?_⟩
    rw [hst]
    simp only [Option.getD_some]

/-- Membership in the permutation check's failure list, unfolded to its generating
data: an assembly, a column slot and a row whose original value differs from the
original value of the slot it is mapped to. -/
theorem mem_permErrors {p : MockProver F} {x : VerifyFailure} :
    x ∈ permErrors p ↔ ∃ pi asm ci colMap ri cell,
      p.permutations[pi]? = some asm ∧ asm.mapping[ci]? = some colMap ∧
      colMap[ri]? = some cell ∧
      original p pi ci ri ≠ original p pi cell.1 cell.2 ∧
      x = VerifyFailure.PermutationFail pi ci ri := by
  unfold permErrors
  constructor
  · intro hx
    simp only [List.mem_flatMap, List.mem_filterMap, List.mem_enum_iff_getElem?,
      Option.ite_none_left_eq_some, Option.some.injEq] at hx
    obtain ⟨pa, hpa, cv, hcv, rc, hrc, hne, hxeq⟩ := hx
    exact ⟨pa.1, pa.2, cv.1, cv.2, rc.1, rc.2, hpa, hcv, hrc, hne, hxeq.symm⟩
  · rintro ⟨pi, asm, ci, colMap, ri, cell, hpa, hcv, hrc, hne, rfl⟩
    simp only [List.mem_flatMap, List.mem_filterMap, List.mem_enum_iff_getElem?,
      Option.ite_none_left_eq_some, Option.some.injEq]
    exact ⟨(pi, asm), hpa, (ci, colMap), hcv, (ri, cell), hrc, hne, rfl⟩

/-- C4: for every permutation assembly slot `(ci, ri)` of its domain, the check
reads the original value of that slot and of the slot it is mapped to — both
resolved through the permutation's declared column set to the underlying grids
with unassigned fixed/advice cells read as zero (`original`) — and a
`Permutation` failure naming the permutation, column slot and row is emitted iff
the two values differ; only the recorded pairwise mapping is consulted, so a slot
still mapped to itself never produces a failure. -/
theorem permutation_preservation_check (p : MockProver F) (pi ci ri : Nat) (asm : Assembly)
    (colMap : List (Nat × Nat)) (cell : Nat × Nat)
    (hpa : p.permutations[pi]? = some asm) (hcv : asm.mapping[ci]? = some colMap)
    (hrc : colMap[ri]? = some cell) :
    (VerifyFailure.PermutationFail pi ci ri ∈ permErrors p ↔
      original p pi ci ri ≠ original p pi cell.1 cell.2)
    ∧ (cell = (ci, ri) → VerifyFailure.PermutationFail pi ci ri ∉ permErrors p) := by
  have hiff : VerifyFailure.PermutationFail pi ci ri ∈ permErrors p ↔
      original p pi ci ri ≠ original p pi cell.1 cell.2 := by
    rw [mem_permErrors]
    constructor
    · rintro ⟨pi', asm', ci', colMap', ri', cell', hpa', hcv', hrc', hne', heq⟩
      injection heq with h1 h2 h3
      subst h1; subst h2; subst h3
      rw [hpa] at hpa'
      injection hpa' with hasm
      subst hasm
      rw [hcv] at hcv'
      injection hcv' with hmap
      subst hmap
      rw [hrc] at hrc'
      injection hrc' with hcell
      subst hcell
      exact hne'
    · intro hne
      exact ⟨pi, asm, ci, colMap, ri, cell, hpa, hcv, hrc, hne, rfl⟩
  refine ⟨hiff, fun hid hmem => ?_⟩
  rw [hiff] at hmem
  rw [hid] at hmem
  exact hmem rfl

/-- C5: `verify` succeeds exactly when all four checks produce zero failures;
otherwise it returns the complete failure list, concatenated with no
short-circuiting in the fixed order — completeness failures, then gate
failures, then lookup failures, then permutation failures. -/
theorem verify_aggregation (p : MockProver F) :
    (verify p = Except.ok () ↔
      selectorErrors p = [] ∧ gateErrors p = [] ∧ lookupErrors p = [] ∧ permErrors p = [])
    ∧ (verify p = Except.ok () ∨
      verify p = Except.error
        (selectorErrors p ++ gateErrors p ++ lookupErrors p ++ permErrors p)) := by
  by_cases h : (selectorErrors p ++ gateErrors p ++ lookupErrors p ++ permErrors p) = []
  · have hok : verify p = Except.ok () := by
      unfold verify
      dsimp only
      rw [List.isEmpty_iff.mpr h]
      rfl
    rw [List.append_eq_nil, List.append_eq_nil, List.append_eq_nil] at h
    exact ⟨⟨fun _ => ⟨h.1.1.1, h.1.1.2, h.1.2, h.2⟩, fun _ => hok⟩, Or.inl hok⟩
  · have herr : verify p = Except.error
        (selectorErrors p ++ gateErrors p ++ lookupErrors p ++ permErrors p) := by
      unfold verify
      dsimp only
      rw [List.isEmpty_eq_false.mpr h]
      rfl
    rw [herr]
    refine ⟨⟨fun hc => Except.noConfusion hc, fun hconj => ?_⟩, Or.inr rfl⟩
    exact absurd (by rw [hconj.1, hconj.2.1, hconj.2.2.1, hconj.2.2.2]; rfl) h

theorem getD_of_getElem? {α : Type} {l : List α} {i : Nat} {x : α} (d : α)
    (h : l[i]? = some x) : l.getD i d = x := by
  rw [List.getD_eq_getElem?_getD, h]
  rfl

theorem getD_set_self {α : Type} (l : List α) (i : Nat) (v d : α) (h : i < l.length) :
    (l.set i v).getD i d = v := by
  rw [List.getD_eq_getElem?_getD, List.getElem?_set_self]
  · rfl
  · exact h

theorem getD_set_ne {α : Type} (l : List α) {i j : Nat} (v d : α) (h : i ≠ j) :
    (l.set i v).getD j d = l.getD j d := by
  rw [List.getD_eq_getElem?_getD, List.getElem?_set_ne h, ← List.getD_eq_getElem?_getD]

theorem record_region_cell_advice (p : MockProver F) (col : Column) (row : Nat) :
    (record_region_cell p col row).advice = p.advice := by
  unfold record_region_cell
  cases p.current_region <;> rfl

theorem record_region_cell_fixed (p : MockProver F) (col : Column) (row : Nat) :
    (record_region_cell p col row).fixed = p.fixed := by
  unfold record_region_cell
  cases p.current_region <;> rfl

theorem record_region_cell_inst (p : MockProver F) (col : Column) (row : Nat) :
    (record_region_cell p col row).inst = p.inst := by
  unfold record_region_cell
  cases p.current_region <;> rfl

theorem record_region_cell_n (p : MockProver F) (col : Column) (row : Nat) :
    (record_region_cell p col row).n = p.n := by
  unfold record_region_cell
  cases p.current_region <;> rfl

theorem record_region_cell_open (p : MockProver F) (col : Column) (row : Nat) (reg : Region)
    (hreg : p.current_region = some reg) :
    (record_region_cell p col row).current_region =
      some { reg.update_start row with cells := reg.cells ++ [(col, row)] } := by
  unfold record_region_cell
  rw [hreg]
  rfl

/-- C7: `assign_advice` / `assign_fixed` invoke the value producer; a producer
error propagates as the call's result, an out-of-range (column, row) pair yields a
bounds error, and otherwise the produced value is stored in the grid — while an
open region records the written cell and extends its start to the minimum row
written so far (`record_region_cell`). -/
theorem assign_value_and_bounds (p : MockProver F) (c r : Nat) (e : Error) (v : F)
    (hlenA : p.advice.length = p.cs.num_advice_columns)
    (hrowsA : ∀ col ∈ p.advice, col.length = p.n)
    (hlenF : p.fixed.length = p.cs.num_fixed_columns)
    (hrowsF : ∀ col ∈ p.fixed, col.length = p.n) :
    (assign_advice p c r (.error e) = (record_region_cell p ⟨Any.Advice, c⟩ r, .error e))
    ∧ (c < p.cs.num_advice_columns → r < p.n →
        assign_advice p c r (.ok v) =
          ({ record_region_cell p ⟨Any.Advice, c⟩ r with
              advice := p.advice.set c ((p.advice.getD c []).set r (some v)) }, .ok ()))
    ∧ (p.cs.num_advice_columns ≤ c ∨ p.n ≤ r →
        assign_advice p c r (.ok v) =
          (record_region_cell p ⟨Any.Advice, c⟩ r, .error Error.BoundsFailure))
    ∧ (assign_fixed p c r (.error e) = (record_region_cell p ⟨Any.Fixed, c⟩ r, .error e))
    ∧ (c < p.cs.num_fixed_columns → r < p.n →
        assign_fixed p c r (.ok v) =
          ({ record_region_cell p ⟨Any.Fixed, c⟩ r with
              fixed := p.fixed.set c ((p.fixed.getD c []).set r (some v)) }, .ok ()))
    ∧ (p.cs.num_fixed_columns ≤ c ∨ p.n ≤ r →
        assign_fixed p c r (.ok v) =
          (record_region_cell p ⟨Any.Fixed, c⟩ r, .error Error.BoundsFailure))
    ∧ (∀ reg, p.current_region = some reg →
        (record_region_cell p ⟨Any.Advice, c⟩ r).current_region =
          some { reg.update_start r with cells := reg.cells ++ [(⟨Any.Advice, c⟩, r)] }
        ∧ (reg.update_start r).start = some (min (reg.start.getD r) r)) := by
  refine ⟨rfl, ?_, ?_, rfl, ?_, ?_, ?_⟩
  · intro hc hr
    have hcA : c < p.advice.length := by rw [hlenA]; exact hc
    have hgl : p.advice.getD c [] = p.advice[c] := List.getD_eq_getElem p.advice [] hcA
    have hcl : (p.advice.getD c []).length = p.n := by
      rw [hgl]
      exact hrowsA _ (List.getElem_mem hcA)
    unfold assign_advice
    dsimp only
    rw [record_region_cell_advice, if_pos ⟨hcA, by rw [hcl]; exact hr⟩]
  · intro h
    have hneg : ¬(c < p.advice.length ∧ r < (p.advice.getD c []).length) := by
      rintro ⟨hc, hr2⟩
      rcases h with h | h
      · rw [hlenA] at hc; omega
      · rw [List.getD_eq_getElem p.advice [] hc] at hr2
        have := hrowsA _ (List.getElem_mem hc)
        omega
    unfold assign_advice
    dsimp only
    rw [record_region_cell_advice, if_neg hneg]
  · intro hc hr
    have hcF : c < p.fixed.length := by rw [hlenF]; exact hc
    have hgl : p.fixed.getD c [] = p.fixed[c] := List.getD_eq_getElem p.fixed [] hcF
    have hcl : (p.fixed.getD c []).length = p.n := by
      rw [hgl]
      exact hrowsF _ (List.getElem_mem hcF)
    unfold assign_fixed
    dsimp only
    rw [record_region_cell_fixed, if_pos ⟨hcF, by rw [hcl]; exact hr⟩]
  · intro h
    have hneg : ¬(c < p.fixed.length ∧ r < (p.fixed.getD c []).length) := by
      rintro ⟨hc, hr2⟩
      rcases h with h | h
      · rw [hlenF] at hc; omega
      · rw [List.getD_eq_getElem p.fixed [] hc] at hr2
        have := hrowsF _ (List.getElem_mem hc)
        omega
    unfold assign_fixed
    dsimp only
    rw [record_region_cell_fixed, if_neg hneg]
  · intro reg hreg
    refine ⟨record_region_cell_open p _ r reg hreg, ?_⟩
    unfold Region.update_start
    dsimp only
    congr 1
    split <;> omega

/-- C10: when a region is open and `assign_advice` / `assign_fixed` fails (producer
error or bounds error), the region recorder has already been mutated — the cell
was appended and the start extended — while the grid itself is unchanged. -/
theorem failed_assign_not_atomic (p : MockProver F) (c r : Nat) (reg : Region)
    (value : Except Error F) (hreg : p.current_region = some reg) :
    ((assign_advice p c r value).2 ≠ .ok () →
      (assign_advice p c r value).1.current_region =
        some { reg.update_start r with cells := reg.cells ++ [(⟨Any.Advice, c⟩, r)] }
      ∧ (assign_advice p c r value).1.advice = p.advice)
    ∧ ((assign_fixed p c r value).2 ≠ .ok () →
      (assign_fixed p c r value).1.current_region =
        some { reg.update_start r with cells := reg.cells ++ [(⟨Any.Fixed, c⟩, r)] }
      ∧ (assign_fixed p c r value).1.fixed = p.fixed) := by
  constructor
  · intro hfail
    cases value with
    | error e =>
        refine ⟨?_, record_region_cell_advice p _ r⟩
        exact record_region_cell_open p _ r reg hreg
    | ok v =>
        unfold assign_advice at hfail ⊢
        dsimp only at hfail ⊢
        by_cases hb : c < (record_region_cell p ⟨Any.Advice, c⟩ r).advice.length ∧
            r < ((record_region_cell p ⟨Any.Advice, c⟩ r).advice.getD c []).length
        · rw [if_pos hb] at hfail
          exact absurd rfl hfail
        · rw [if_neg hb]
          refine ⟨?_, record_region_cell_advice p _ r⟩
          exact record_region_cell_open p _ r reg hreg
  · intro hfail
    cases value with
    | error e =>
        refine ⟨?_, record_region_cell_fixed p _ r⟩
        exact record_region_cell_open p _ r reg hreg
    | ok v =>
        unfold assign_fixed at hfail ⊢
        dsimp only at hfail ⊢
        by_cases hb : c < (record_region_cell p ⟨Any.Fixed, c⟩ r).fixed.length ∧
            r < ((record_region_cell p ⟨Any.Fixed, c⟩ r).fixed.getD c []).length
        · rw [if_pos hb] at hfail
          exact absurd rfl hfail
        · rw [if_neg hb]
          refine ⟨?_, record_region_cell_fixed p _ r⟩
          exact record_region_cell_open p _ r reg hreg

/-- Recording a copy on in-range slots succeeds and leaves the two slots holding
each other's previous mapping entries: the pairwise link. -/
theorem Assembly.copy_spec (a : Assembly) (li lr ri rr : Nat)
    (h1 : li < a.mapping.length) (h2 : lr < (a.mapping.getD li []).length)
    (h3 : ri < a.mapping.length) (h4 : rr < (a.mapping.getD ri []).length) :
    ∃ a2, a.copy li lr ri rr = .ok a2 ∧
      (a2.mapping.getD li []).getD lr (0, 0) = (a.mapping.getD ri []).getD rr (0, 0) ∧
      (a2.mapping.getD ri []).getD rr (0, 0) = (a.mapping.getD li []).getD lr (0, 0) := by
  unfold Assembly.copy
  rw [if_pos ⟨h1, h2, h3, h4⟩]
  refine ⟨_, rfl, ?_, ?_⟩ <;> dsimp only
  · set colL := a.mapping.getD li [] with hL
    set colR := a.mapping.getD ri [] with hR
    set vR := colR.getD rr (0, 0) with hvR
    set tmp := colL.getD lr (0, 0) with htmp
    set m1 := a.mapping.set li (colL.set lr vR) with hm1
    have hm1len : m1.length = a.mapping.length := by
      rw [hm1]; exact List.length_set _ _ _
    have hLlen : (colL.set lr vR).length = colL.length := List.length_set _ _ _
    by_cases hcol : ri = li
    · subst hcol
      rw [getD_set_self m1 _ _ [] (by rw [hm1len]; exact h3)]
      rw [hm1, getD_set_self _ _ _ _ h1]
      by_cases hrow : rr = lr
      · subst hrow
        rw [getD_set_self _ _ _ _ (by rw [hLlen]; exact h2)]
      · rw [getD_set_ne _ _ _ hrow, getD_set_self _ _ _ _ h2]
    · rw [getD_set_ne _ _ _ hcol, hm1, getD_set_self _ _ _ _ h1,
        getD_set_self _ _ _ _ h2]
  · set colL := a.mapping.getD li [] with hL
    set colR := a.mapping.getD ri [] with hR
    set vR := colR.getD rr (0, 0) with hvR
    set tmp := colL.getD lr (0, 0) with htmp
    set m1 := a.mapping.set li (colL.set lr vR) with hm1
    have hm1len : m1.length = a.mapping.length := by
      rw [hm1]; exact List.length_set _ _ _
    rw [getD_set_self m1 _ _ [] (by rw [hm1len]; exact h3)]
    have hwid : rr < (m1.getD ri []).length := by
      by_cases hcol : li = ri
      · subst hcol
        rw [hm1, getD_set_self _ _ _ _ h1, List.length_set]
        exact h4
      · rw [hm1, getD_set_ne _ _ _ hcol]
        exact h4
    rw [getD_set_self _ _ _ _ hwid]

/-- C8: `copy` fails with a bounds error when the permutation reference is not
below the number of seeded assemblies (checked before any column resolution); it
fails with a synthesis error when either column is absent from the permutation's
declared column set; otherwise it records a pairwise link between
`(left_column_index, left_row)` and `(right_column_index, right_row)` in that
permutation's assembly. -/
theorem copy_records_pairwise_link (p : MockProver F) (perm : Permutation)
    (lc rc : Column) (lr rr : Nat) :
    (p.permutations.length ≤ perm.index →
      copy p perm lc lr rc rr = (p, .error Error.BoundsFailure))
    ∧ (perm.index < p.permutations.length →
        perm.mapping.findIdx? (fun c => decide (c = lc)) = none →
        copy p perm lc lr rc rr = (p, .error Error.SynthesisError))
    ∧ (perm.index < p.permutations.length →
        perm.mapping.findIdx? (fun c => decide (c = rc)) = none →
        copy p perm lc lr rc rr = (p, .error Error.SynthesisError))
    ∧ (∀ li ri asm, perm.index < p.permutations.length →
        perm.mapping.findIdx? (fun c => decide (c = lc)) = some li →
        perm.mapping.findIdx? (fun c => decide (c = rc)) = some ri →
        p.permutations[perm.index]? = some asm →
        li < asm.mapping.length → lr < (asm.mapping.getD li []).length →
        ri < asm.mapping.length → rr < (asm.mapping.getD ri []).length →
        ∃ asm2, copy p perm lc lr rc rr =
            ({ p with permutations := p.permutations.set perm.index asm2 }, .ok ())
          ∧ (asm2.mapping.getD li []).getD lr (0, 0) = (asm.mapping.getD ri []).getD rr (0, 0)
          ∧ (asm2.mapping.getD ri []).getD rr (0, 0)
              = (asm.mapping.getD li []).getD lr (0, 0)) := by
  refine ⟨?_, ?_, ?_, ?_⟩
  · intro hb
    unfold copy
    rw [if_pos hb]
  · intro hb hnone
    unfold copy
    rw [if_neg (by omega), hnone]
  · intro hb hnone
    unfold copy
    rw [if_neg (by omega)]
    cases hfl : perm.mapping.findIdx? (fun c => decide (c = lc)) with
    | none => rfl
    | some li => rw [hnone]
  · intro li ri asm hb hfl hfr hasm hb1 hb2 hb3 hb4
    have hgd : p.permutations.getD perm.index ⟨[]⟩ = asm := getD_of_getElem? _ hasm
    obtain ⟨asm2, hcopy, hlink1, hlink2⟩ := Assembly.copy_spec asm li lr ri rr hb1 hb2 hb3 hb4
    refine ⟨asm2, ?_, hlink1, hlink2⟩
    unfold copy
    rw [if_neg (by omega), hfl, hfr, hgd]
    dsimp only
    rw [hcopy]

theorem assign_advice_keeps_inst_n (p : MockProver F) (c r : Nat) (value : Except Error F) :
    (assign_advice p c r value).1.inst = p.inst ∧ (assign_advice p c r value).1.n = p.n := by
  unfold assign_advice
  cases value with
  | error e => exact ⟨record_region_cell_inst p _ r, record_region_cell_n p _ r⟩
  | ok v =>
      dsimp only
      split
      · exact ⟨record_region_cell_inst p _ r, record_region_cell_n p _ r⟩
      · exact ⟨record_region_cell_inst p _ r, record_region_cell_n p _ r⟩

theorem assign_fixed_keeps_inst_n (p : MockProver F) (c r : Nat) (value : Except Error F) :
    (assign_fixed p c r value).1.inst = p.inst ∧ (assign_fixed p c r value).1.n = p.n := by
  unfold assign_fixed
  cases value with
  | error e => exact ⟨record_region_cell_inst p _ r, record_region_cell_n p _ r⟩
  | ok v =>
      dsimp only
      split
      · exact ⟨record_region_cell_inst p _ r, record_region_cell_n p _ r⟩
      · exact ⟨record_region_cell_inst p _ r, record_region_cell_n p _ r⟩

theorem copy_keeps_inst_n (p : MockProver F) (perm : Permutation) (lc : Column) (lr : Nat)
    (rc : Column) (rr : Nat) :
    (copy p perm lc lr rc rr).1.inst = p.inst ∧ (copy p perm lc lr rc rr).1.n = p.n := by
  unfold copy
  split
  · exact ⟨rfl, rfl⟩
  · cases perm.mapping.findIdx? (fun c => decide (c = lc)) with
    | none => exact ⟨rfl, rfl⟩
    | some li =>
        cases perm.mapping.findIdx? (fun c => decide (c = rc)) with
        | none => exact ⟨rfl, rfl⟩
        | some ri =>
            dsimp only
            cases (p.permutations.getD perm.index ⟨[]⟩).copy li lr ri rr with
            | error e => exact ⟨rfl, rfl⟩
            | ok asm => exact ⟨rfl, rfl⟩

/-- No interface call changes the instance grid or the circuit size. -/
theorem applyOp_keeps_inst_n (p q : MockProver F) (op : SynOp F) (res : Except Error Unit)
    (h : applyOp p op = some (q, res)) : q.inst = p.inst ∧ q.n = p.n := by
  cases op with
  | enterRegion name =>
      simp only [applyOp] at h
      split at h
      · exact absurd h (by simp)
      · injection h with h'
        injection h' with h1 h2
        subst h1
        exact ⟨rfl, rfl⟩
  | exitRegion =>
      simp only [applyOp] at h
      cases hc : p.current_region with
      | none => rw [hc] at h; exact absurd h (by simp)
      | some r =>
          rw [hc] at h
          dsimp only at h
          injection h with h'
          injection h' with h1 h2
          subst h1
          exact ⟨rfl, rfl⟩
  | enableSelector s row =>
      simp only [applyOp] at h
      cases hc : p.current_region with
      | none => rw [hc] at h; exact absurd h (by simp)
      | some region =>
          rw [hc] at h
          dsimp only at h
          injection h with h'
          have hq := congrArg Prod.fst h'
          dsimp only at hq
          rw [← hq]
          exact ⟨(assign_fixed_keeps_inst_n _ _ _ _).1, (assign_fixed_keeps_inst_n _ _ _ _).2⟩
  | assignAdvice column row value =>
      simp only [applyOp] at h
      injection h with h'
      have hq := congrArg Prod.fst h'
      dsimp only at hq
      rw [← hq]
      exact assign_advice_keeps_inst_n p column row value
  | assignFixed column row value =>
      simp only [applyOp] at h
      injection h with h'
      have hq := congrArg Prod.fst h'
      dsimp only at hq
      rw [← hq]
      exact assign_fixed_keeps_inst_n p column row value
  | copyOp perm lc lr rc rr =>
      simp only [applyOp] at h
      injection h with h'
      have hq := congrArg Prod.fst h'
      dsimp only at hq
      rw [← hq]
      exact copy_keeps_inst_n p perm lc lr rc rr
  | pushNamespace name =>
      simp only [applyOp] at h
      injection h with h'
      injection h' with h1 h2
      subst h1
      exact ⟨rfl, rfl⟩
  | popNamespace =>
      simp only [applyOp] at h
      injection h with h'
      injection h' with h1 h2
      subst h1
      exact ⟨rfl, rfl⟩

/-- Driving the interface never changes the instance grid or the circuit size. -/
theorem runOps_keeps_inst_n (ops : List (SynOp F)) :
    ∀ p q res, runOps p ops = some (q, res) → q.inst = p.inst ∧ q.n = p.n := by
  induction ops with
  | nil =>
      intro p q res h
      unfold runOps at h
      injection h with h'
      injection h' with h1 h2
      subst h1
      exact ⟨rfl, rfl⟩
  | cons op ops ih =>
      intro p q res h
      unfold runOps at h
      cases happ : applyOp p op with
      | none => rw [happ] at h; exact absurd h (by simp)
      | some pr =>
          rw [happ] at h
          obtain ⟨p', res'⟩ := pr
          cases res' with
          | error e =>
              dsimp only at h
              injection h with h'
              injection h' with h1 h2
              subst h1
              exact applyOp_keeps_inst_n p p' op _ happ
          | ok u =>
              cases u
              dsimp only at h
              obtain ⟨hq1, hq2⟩ := ih p' q res h
              obtain ⟨hp1, hp2⟩ := applyOp_keeps_inst_n p p' op _ happ
              exact ⟨hq1.trans hp1, hq2.trans hp2⟩

/-- C9 (amended): `run` stores the caller-supplied instance grid verbatim and never
mutates it, so after a successful run the state has `n = 2^k` and exactly the
supplied instance columns; every instance column has `n` rows precisely when the
caller supplied columns of `n` rows. -/
theorem run_keeps_supplied_instance (k : Nat) (cs : ConstraintSystem F)
    (ops : List (SynOp F)) (instGrid : List (List F)) (p : MockProver F)
    (h : run k cs ops instGrid = some (Except.ok p)) :
    p.n = 2 ^ k ∧ p.inst = instGrid ∧
      ((∀ col ∈ instGrid, col.length = 2 ^ k) → ∀ col ∈ p.inst, col.length = p.n) := by
  unfold run at h
  cases hro : runOps (initialProver k cs instGrid) ops with
  | none => rw [hro] at h; exact absurd h (by simp)
  | some pr =>
      rw [hro] at h
      obtain ⟨p', res⟩ := pr
      cases res with
      | error e =>
          dsimp only at h
          exact absurd h (by simp)
      | ok u =>
          cases u
          dsimp only at h
          injection h with h'
          injection h' with h''
          subst h''
          obtain ⟨h1, h2⟩ := runOps_keeps_inst_n ops (initialProver k cs instGrid) p' _ hro
          refine ⟨h2, h1, ?_⟩
          intro hall col hcol
          rw [h2]
          rw [h1] at hcol
          exact hall col hcol

/-- C6: a fixed or advice cell never assigned during synthesis reads as the
additive identity in gate evaluation, lookup evaluation and the permutation
check's original-value reads — for advice leaves, fixed leaves, and both the
`Advice` and `Fixed` branches of the permutation's original-value resolution;
concrete circuits whose constraints are satisfied by this zero default (one
reading an unassigned advice cell, one an unassigned fixed cell) verify
successfully even though the queried cells were never assigned. -/
theorem unassigned_cells_default_zero (p : MockProver F)
    (i c r pj cj rw0 iF cF pjF cjF rwF : Nat) (rot rotF : Int)
    (hq : p.cs.advice_queries[i]? = some (c, rot))
    (hcell : (p.advice.getD c []).getD (rotRow p.n r rot) none = none)
    (hpc : ((p.cs.permutations.getD pj { columns := [] }).get_columns)[cj]?
      = some ⟨Any.Advice, c⟩)
    (hcell2 : (p.advice.getD c []).getD rw0 none = none)
    (hqF : p.cs.fixed_queries[iF]? = some (cF, rotF))
    (hcellF : (p.fixed.getD cF []).getD (rotRow p.n r rotF) none = none)
    (hpcF : ((p.cs.permutations.getD pjF { columns := [] }).get_columns)[cjF]?
      = some ⟨Any.Fixed, cF⟩)
    (hcellF2 : (p.fixed.getD cF []).getD rwF none = none) :
    gateEval p ((p.n : Int) + (r : Int)) (Expression.adviceQ i) = 0
    ∧ lookupLoad p (Int.ofNat r) (Expression.adviceQ i) = 0
    ∧ original p pj cj rw0 = 0
    ∧ gateEval p ((p.n : Int) + (r : Int)) (Expression.fixedQ iF) = 0
    ∧ lookupLoad p (Int.ofNat r) (Expression.fixedQ iF) = 0
    ∧ original p pjF cjF rwF = 0
    ∧ verify exProver = Except.ok ()
    ∧ verify exProverF = Except.ok () := by
  have hspec : specEval p r (Expression.adviceQ i) = 0 := by
    simp only [specEval]
    rw [getD_of_getElem? (0, 0) hq]
    dsimp only
    rw [hcell]
    rfl
  have hspecF : specEval p r (Expression.fixedQ iF) = 0 := by
    simp only [specEval]
    rw [getD_of_getElem? (0, 0) hqF]
    dsimp only
    rw [hcellF]
    rfl
  refine ⟨?_, ?_, ?_, ?_, ?_, ?_, rfl, rfl⟩
  · rw [gateEval_eq_specEval]
    exact hspec
  · rw [lookupLoad_eq_specEval]
    exact hspec
  · unfold original
    rw [hpc]
    dsimp only
    rw [hcell2]
    rfl
  · rw [gateEval_eq_specEval]
    exact hspecF
  · rw [lookupLoad_eq_specEval]
    exact hspecF
  · unfold original
    rw [hpcF]
    dsimp only
    rw [hcellF2]
    rfl

/-- C9 (counterexample): `run` succeeds without checking the supplied instance
columns, so a successful run can hold an instance column that does not have
`n = 2^k` rows. -/
theorem run_short_instance_counterexample :
    run 1 exCS ([] : List (SynOp (ZMod 5))) [[]]
      = some (Except.ok (initialProver 1 exCS [[]]))
    ∧ ∃ col ∈ (initialProver 1 exCS ([[]] : List (List (ZMod 5)))).inst,
        col.length ≠ (initialProver 1 exCS ([[]] : List (List (ZMod 5)))).n := by
  refine ⟨rfl, [], ?_, ?_⟩
  · decide
  · decide

/-- Witness for the gate-satisfaction characterization at a concrete state. -/
theorem gate_satisfaction_check_witness :
    (VerifyFailure.Constraint 0 exGate.name 0 (exGate.constraint_name 0) 0
        ∈ gateErrors exProver
      ↔ specEval exProver 0 (Expression.adviceQ 0) ≠ 0)
    ∧ rotRow exProver.n 0 (-1) = exProver.n - 1 :=
  gate_satisfaction_check exProver (by decide) 0 0 0 exGate (Expression.adviceQ 0)
    rfl rfl (by decide)

/-- Witness for the lookup-inclusion characterization at a concrete state. -/
theorem lookup_inclusion_check_witness :
    VerifyFailure.LookupFail 0 0 ∈ lookupErrors exProver ↔
      ¬ ∃ t, t < exProver.n
        ∧ (exLookup.table_expressions.map fun c => specEval exProver t c)
          = (exLookup.input_expressions.map fun c => specEval exProver 0 c) :=
  lookup_inclusion_check exProver 0 0 exLookup rfl (by decide)

/-- Witness for the cell-completeness characterization at a concrete state. -/
theorem cell_completeness_check_witness :
    VerifyFailure.Cell 0 exRegion0.name ⟨Any.Advice, 0⟩
        ((rotRow exProverR.n 1 0 : Int) - (1 : Int)) 0 exGate.name
        ∈ selectorErrors exProverR
      ↔ ((⟨Any.Advice, 0⟩ : Column), rotRow exProverR.n 1 0) ∉ exRegion0.cells :=
  cell_completeness_check exProverR 0 0 1 1 exRegion0 ⟨0⟩ [1] exGate ⟨⟨Any.Advice, 0⟩, 0⟩
    rfl (by decide) rfl (by decide) (by decide) (by decide) rfl

/-- Witness for the permutation-preservation characterization at a concrete state. -/
theorem permutation_preservation_check_witness :
    (VerifyFailure.PermutationFail 0 0 0 ∈ permErrors exProver ↔
      original exProver 0 0 0 ≠ original exProver 0 0 0)
    ∧ (((0, 0) : Nat × Nat) = (0, 0) →
        VerifyFailure.PermutationFail 0 0 0 ∉ permErrors exProver) :=
  permutation_preservation_check exProver 0 0 0 (Assembly.new 2 1) [(0, 0), (0, 1)] (0, 0)
    rfl rfl rfl

/-- Witness for the default-to-zero reads, advice and fixed, at a concrete state. -/
theorem unassigned_cells_default_zero_witness :
    gateEval exProverF ((exProverF.n : Int) + ((0 : Nat) : Int)) (Expression.adviceQ 0) = 0
    ∧ lookupLoad exProverF (Int.ofNat 0) (Expression.adviceQ 0) = 0
    ∧ original exProverF 0 0 0 = 0
    ∧ gateEval exProverF ((exProverF.n : Int) + ((0 : Nat) : Int)) (Expression.fixedQ 0) = 0
    ∧ lookupLoad exProverF (Int.ofNat 0) (Expression.fixedQ 0) = 0
    ∧ original exProverF 0 1 0 = 0
    ∧ verify exProver = Except.ok ()
    ∧ verify exProverF = Except.ok () :=
  unassigned_cells_default_zero exProverF 0 0 0 0 0 0 0 0 0 1 0 0 0
    rfl rfl rfl rfl rfl rfl rfl rfl

/-- Witness for the assignment value/bounds behaviour at a concrete state. -/
theorem assign_value_and_bounds_witness :
    exProver.advice.length = exProver.cs.num_advice_columns
    ∧ assign_advice exProver 0 0 (Except.error Error.SynthesisError)
        = (record_region_cell exProver ⟨Any.Advice, 0⟩ 0, Except.error Error.SynthesisError)
    ∧ (0 < exProver.cs.num_advice_columns → 0 < exProver.n →
        assign_advice exProver 0 0 (Except.ok 3) =
          ({ record_region_cell exProver ⟨Any.Advice, 0⟩ 0 with
              advice := exProver.advice.set 0 ((exProver.advice.getD 0 []).set 0 (some 3)) },
            Except.ok ())) :=
  ⟨rfl, (assign_value_and_bounds exProver 0 0 Error.SynthesisError 3 rfl (by decide) rfl
      (by decide)).1,
    (assign_value_and_bounds exProver 0 0 Error.SynthesisError 3 rfl (by decide) rfl
      (by decide)).2.1⟩

/-- Witness for the copy pairwise-link behaviour at a concrete state. -/
theorem copy_records_pairwise_link_witness :
    ∃ asm2, copy exProver exPerm ⟨Any.Advice, 0⟩ 0 ⟨Any.Advice, 0⟩ 1 =
        ({ exProver with permutations := exProver.permutations.set 0 asm2 }, Except.ok ())
      ∧ (asm2.mapping.getD 0 []).getD 0 (0, 0)
          = ((Assembly.new 2 1).mapping.getD 0 []).getD 1 (0, 0)
      ∧ (asm2.mapping.getD 0 []).getD 1 (0, 0)
          = ((Assembly.new 2 1).mapping.getD 0 []).getD 0 (0, 0) :=
  (copy_records_pairwise_link exProver exPerm ⟨Any.Advice, 0⟩ ⟨Any.Advice, 0⟩ 0 1).2.2.2
    0 0 (Assembly.new 2 1) (by decide) rfl rfl rfl (by decide) (by decide) (by decide)
    (by decide)

/-- Witness for the run instance-preservation behaviour at a concrete input. -/
theorem run_keeps_supplied_instance_witness :
    run 1 exCS ([] : List (SynOp (ZMod 5))) [[1, 2]]
        = some (Except.ok (initialProver 1 exCS [[1, 2]]))
    ∧ ((initialProver 1 exCS ([[1, 2]] : List (List (ZMod 5)))).n = 2 ^ 1
      ∧ (initialProver 1 exCS ([[1, 2]] : List (List (ZMod 5)))).inst = [[1, 2]]
      ∧ ((∀ col ∈ ([[1, 2]] : List (List (ZMod 5))), col.length = 2 ^ 1) →
          ∀ col ∈ (initialProver 1 exCS ([[1, 2]] : List (List (ZMod 5)))).inst,
            col.length = (initialProver 1 exCS ([[1, 2]] : List (List (ZMod 5)))).n)) :=
  ⟨rfl, run_keeps_supplied_instance 1 exCS [] [[1, 2]] (initialProver 1 exCS [[1, 2]]) rfl⟩

/-- Witness for the non-atomic failed assignment at a concrete state. -/
theorem failed_assign_not_atomic_witness :
    (assign_advice exProverOpen 0 0 (Except.error Error.SynthesisError)).1.current_region =
      some { exRegion0.update_start 0 with cells := exRegion0.cells ++ [(⟨Any.Advice, 0⟩, 0)] }
    ∧ (assign_advice exProverOpen 0 0 (Except.error Error.SynthesisError)).1.advice
        = exProverOpen.advice :=
  (failed_assign_not_atomic exProverOpen 0 0 exRegion0 (Except.error Error.SynthesisError)
    rfl).1 (by decide)

end MockDev
